import Mathlib

/-!
Verification of the rtorrent XMLRPC bindings crate: a shallow embedding of
the multicall batch-query builder (`src/multicall/raw_impl.rs`,
`src/multicall/mod.rs`), the operation catalogs (`src/multicall/ops/*.rs`),
the scalar codec (`src/value_conversion.rs`), the entity-handle addressing
keys (`src/file.rs`, `src/peer.rs`, `src/tracker.rs`, `src/download.rs`) and
the accessor macros of `src/lib.rs`.

Machine integers (`i32`, `i64`) are modelled as `Int`; the transport is an
explicit function argument `Request → Except Error Value` so that `invoke`
can be evaluated against a mocked response.
-/

namespace Rtorrent

/-- Wire value of the `xmlrpc` crate (`xmlrpc::Value`): a tagged union of
integer (two widths), boolean, string, datetime, base64 byte array, struct,
array and nil. -/
inductive Value where
  | int (i : Int)
  | int64 (i : Int)
  | bool (b : Bool)
  | string (s : String)
  | dateTime (s : String)
  | base64 (bytes : List Nat)
  | strukt (fields : List (String × Value))
  | array (elems : List Value)
  | nil
deriving Repr

/-- Shallow rendering of a wire value, standing for the `{:?}` debug
formatting used in the crate's error messages. -/
def Value.describe : Value → String
  | .int i => "Int(" ++ toString i ++ ")"
  | .int64 i => "Int64(" ++ toString i ++ ")"
  | .bool b => "Bool(" ++ toString b ++ ")"
  | .string s => "String(" ++ s ++ ")"
  | .dateTime s => "DateTime(" ++ s ++ ")"
  | .base64 _ => "Base64(..)"
  | .strukt _ => "Struct(..)"
  | .array _ => "Array(..)"
  | .nil => "Nil"

/-- The wire shapes the boolean decode accepts: the two integer variants
and native booleans. -/
def Value.boolShape : Value → Bool
  | .int _ => true
  | .int64 _ => true
  | .bool _ => true
  | _ => false

/-- The crate's unified error type (`Error` in `src/lib.rs`): a transport
error wrapped verbatim, or a structural error with a description. -/
inductive Error where
  | xmlRpc (msg : String)
  | unexpectedStructure (msg : String)
deriving Repr

/-- `impl TryFromValue for i64` in `src/value_conversion.rs`: accept either
integer variant, reject every other shape. -/
def i64_try_from_value : Value → Except Error Int
  | .int i => .ok i
  | .int64 i => .ok i
  | v => .error (.unexpectedStructure ("Got " ++ v.describe ++ ", expected integer"))

/-- `impl TryFromValue for f64`: decode via the integer rule, then divide by
1000.0 (float).  We carry the integer numerator; the decoded float is
`numerator / 1000.0`. -/
def f64_try_from_value (val : Value) : Except Error Int :=
  i64_try_from_value val

/-- `impl TryFromValue for bool`: either integer variant decodes to
`i != 0`; a native boolean decodes to itself; everything else is a
structural error. -/
def bool_try_from_value : Value → Except Error Bool
  | .int i => .ok (i != 0)
  | .int64 i => .ok (i != 0)
  | .bool b => .ok b
  | v => .error (.unexpectedStructure ("Got " ++ v.describe ++ ", expected bool or integer type"))

/-- `impl TryFromValue for String`: accept a wire string only. -/
def string_try_from_value : Value → Except Error String
  | .string s => .ok s
  | v => .error (.unexpectedStructure ("Got " ++ v.describe ++ ", expected string"))

/-- `impl TryFromValue for ()`: accept `Value::Int(0)` or `Value::Nil`,
reject everything else. -/
def unit_try_from_value : Value → Except Error Unit
  | .int 0 => .ok ()
  | .nil => .ok ()
  | v => .error (.unexpectedStructure ("Got " ++ v.describe ++ ", expected int(0) or nil"))

namespace value_conversion

/-- `value_conversion::list`: unwrap a wire array, structural error
otherwise. -/
def list : Value → Except Error (List Value)
  | .array a => .ok a
  | v => .error (.unexpectedStructure ("Got " ++ v.describe ++ ", expected array"))

end value_conversion

/-- An XMLRPC request: procedure name plus ordered positional arguments
(`xmlrpc::Request`). -/
structure Request where
  name : String
  args : List Value
deriving Repr

/-- `Request::new`. -/
def Request.new (name : String) : Request := ⟨name, []⟩

/-- `Request::arg`: append one positional argument. -/
def Request.arg (r : Request) (v : Value) : Request := ⟨r.name, r.args ++ [v]⟩

/-- `MultiBuilderInternal` (`src/multicall/raw_impl.rs`): procedure name,
call-target, call-filter and the accumulated column arguments.  The server
handle is dropped; the transport is passed to `invoke` instead. -/
structure MultiBuilderInternal where
  multicall : String
  call_target : Value
  call_filter : Value
  args : List Value
deriving Repr

/-- `MultiBuilderInternal::new`. -/
def MultiBuilderInternal.new (multicall : String) (call_target call_filter : Value) :
    MultiBuilderInternal :=
  ⟨multicall, call_target, call_filter, []⟩

/-- `MultiBuilderInternal::push_arg`. -/
def MultiBuilderInternal.push_arg (b : MultiBuilderInternal) (val : Value) :
    MultiBuilderInternal :=
  { b with args := b.args ++ [val] }

/-- `MultiBuilderInternal::as_request`: start from the procedure name, add
the call-target and call-filter, then fold every accumulated column
argument on in order. -/
def MultiBuilderInternal.as_request (b : MultiBuilderInternal) : Request :=
  b.args.foldl Request.arg (((Request.new b.multicall).arg b.call_target).arg b.call_filter)

/-- `MultiBuilderInternal::invoke`: execute the request on the server and
unwrap the top-level response array. -/
def MultiBuilderInternal.invoke (b : MultiBuilderInternal)
    (transport : Request → Except Error Value) : Except Error (List Value) :=
  match transport b.as_request with
  | .error e => .error e
  | .ok v => value_conversion.list v

/-- `MultiBuilder::new` (`src/multicall/raw_impl.rs`): both key strings are
converted into wire string values. -/
def MultiBuilder.new (multicall call_target call_filter : String) : MultiBuilderInternal :=
  MultiBuilderInternal.new multicall (.string call_target) (.string call_filter)

/-- The scalar result types usable as multicall columns: the `TryFromValue`
instantiations of the crate (`i64`, `f64`, `bool`, `String`, `()`). -/
inductive ScalarTy where
  | i64
  | f64
  | bool
  | str
  | unit
deriving Repr, DecidableEq

/-- A decoded scalar cell.  `f64` carries the wire integer; the crate's
float is that integer divided by 1000.0. -/
inductive Scalar where
  | i64 (i : Int)
  | f64 (numerator : Int)
  | bool (b : Bool)
  | str (s : String)
  | unit
deriving Repr

/-- Dispatch a cell decode to the column's `TryFromValue` instance. -/
def decodeScalar : ScalarTy → Value → Except Error Scalar
  | .i64, v =>
    match i64_try_from_value v with
    | .ok i => .ok (.i64 i)
    | .error e => .error e
  | .f64, v =>
    match f64_try_from_value v with
    | .ok i => .ok (.f64 i)
    | .error e => .error e
  | .bool, v =>
    match bool_try_from_value v with
    | .ok b => .ok (.bool b)
    | .error e => .error e
  | .str, v =>
    match string_try_from_value v with
    | .ok s => .ok (.str s)
    | .error e => .error e
  | .unit, v =>
    match unit_try_from_value v with
    | .ok _ => .ok .unit
    | .error e => .error e

/-- The typed builder of the `define_builder!` macro chain
(`MultiBuilder1` .. `MultiBuilder9`): the internal builder together with the
list of phantom column types.  `tys.length` is the static row arity. -/
structure TypedBuilder where
  inner : MultiBuilderInternal
  tys : List ScalarTy
deriving Repr

/-- The arity-0 entry point: a raw `MultiBuilder` carries no columns. -/
def TypedBuilder.new (multicall call_target call_filter : String) : TypedBuilder :=
  ⟨MultiBuilder.new multicall call_target call_filter, []⟩

/-- `define_builder!::call` (`src/multicall/raw_impl.rs` lines 149-157):
push `getter ++ "="` onto the column-argument list and append the column's
type to the phantom type list. -/
def TypedBuilder.call (b : TypedBuilder) (ty : ScalarTy) (getter : String) : TypedBuilder :=
  ⟨b.inner.push_arg (.string (getter ++ "=")), b.tys ++ [ty]⟩

/-- A sequence of `call` invocations, applied left to right. -/
def callSeq (b : TypedBuilder) (cols : List (ScalarTy × String)) : TypedBuilder :=
  cols.foldl (fun acc c => acc.call c.1 c.2) b

/-- Decode the cells of one row against the declared column types, left to
right, stopping at the first structural error (the tuple construction of
`define_builder!::invoke`).  The final catch-all is unreachable when the
lengths agree. -/
def decodeCells : List ScalarTy → List Value → Except Error (List Scalar)
  | [], [] => .ok []
  | t :: ts, c :: cs =>
    match decodeScalar t c with
    | .error e => .error e
    | .ok s =>
      match decodeCells ts cs with
      | .error e => .error e
      | .ok rest => .ok (s :: rest)
  | _, _ => .error (.unexpectedStructure "row missing columns")

/-- Decode one row (`define_builder!::invoke` body): unwrap the row array,
check it has exactly one cell per declared column (the slice pattern), then
decode cell by cell. -/
def decodeRow (tys : List ScalarTy) (rowv : Value) : Except Error (List Scalar) :=
  match value_conversion.list rowv with
  | .error e => .error e
  | .ok cells =>
    if cells.length = tys.length then
      decodeCells tys cells
    else
      .error (.unexpectedStructure ("row missing columns (" ++ rowv.describe ++ ")"))

/-- The row loop of `define_builder!::invoke`: decode each row in order,
aborting the whole call at the first failing row. -/
def invokeRows (tys : List ScalarTy) : List Value → Except Error (List (List Scalar))
  | [] => .ok []
  | r :: rest =>
    match decodeRow tys r with
    | .error e => .error e
    | .ok row =>
      match invokeRows tys rest with
      | .error e => .error e
      | .ok rows => .ok (row :: rows)

/-- `define_builder!::invoke` (`src/multicall/raw_impl.rs` lines 119-137):
one round trip through the internal builder, then the row decode loop. -/
def TypedBuilder.invoke (b : TypedBuilder)
    (transport : Request → Except Error Value) : Except Error (List (List Scalar)) :=
  match b.inner.invoke transport with
  | .error e => .error e
  | .ok rows => invokeRows b.tys rows

/-- Entity kinds of the operation catalogs. -/
inductive OpKind where
  | d
  | f
  | p
  | t
deriving Repr, DecidableEq

/-- A catalog entry (`op_type!` / `op_const!` in `src/multicall/ops/mod.rs`):
an accessor-name string and a declared scalar type, tagged with the entity
kind of its catalog (the phantom marker type). -/
structure Operation where
  kind : OpKind
  name : String
  ty : ScalarTy
deriving Repr

/-- `op_const!`: the accessor name is the concatenation of the namespace
literal and the API literal. -/
def op_const (kind : OpKind) (ty : ScalarTy) (apiNs api : String) : Operation :=
  ⟨kind, apiNs ++ api, ty⟩

/-- `f_op_const!` (`src/multicall/ops/f.rs` lines 71-75): expands to
`op_const!(FileMultiCallOp, _, _, "p.", api)` — the namespace literal in
the source is `"p."`. -/
def f_op_const (ty : ScalarTy) (api : String) : Operation :=
  op_const .f ty "p." api

/-- `p_op_const!` (`src/multicall/ops/p.rs`). -/
def p_op_const (ty : ScalarTy) (api : String) : Operation :=
  op_const .p ty "p." api

/-- `t_op_const!` (`src/multicall/ops/t.rs`). -/
def t_op_const (ty : ScalarTy) (api : String) : Operation :=
  op_const .t ty "t." api

/-- `f::COMPLETED_CHUNKS`. -/
def f.COMPLETED_CHUNKS : Operation := f_op_const .i64 "completed_chunks"

/-- `f::FROZEN_PATH`. -/
def f.FROZEN_PATH : Operation := f_op_const .str "frozen_path"

/-- `f::OFFSET`. -/
def f.OFFSET : Operation := f_op_const .i64 "offset"

/-- `f::PATH`. -/
def f.PATH : Operation := f_op_const .str "path"

/-- `f::PRIORITY`. -/
def f.PRIORITY : Operation := f_op_const .i64 "priority"

/-- `f::SIZE_BYTES`. -/
def f.SIZE_BYTES : Operation := f_op_const .i64 "size_bytes"

/-- `f::SIZE_CHUNKS`. -/
def f.SIZE_CHUNKS : Operation := f_op_const .i64 "size_chunks"

/-- All `Operation` constants defined in `src/multicall/ops/f.rs`. -/
def fileCatalog : List Operation :=
  [f.COMPLETED_CHUNKS, f.FROZEN_PATH, f.OFFSET, f.PATH, f.PRIORITY, f.SIZE_BYTES, f.SIZE_CHUNKS]

/-- `f::MultiBuilder::new` (`src/multicall/ops/f.rs` lines 57-61): a raw
builder on the `f.multicall` procedure with the download hash as
call-target and `glob.unwrap_or("")` as call-filter. -/
def f.MultiBuilderNew (download_sha1 : String) (glob : Option String) : TypedBuilder :=
  TypedBuilder.new "f.multicall" download_sha1 (glob.getD "")

/-- `p::MultiBuilder::new` (`src/multicall/ops/p.rs`). -/
def p.MultiBuilderNew (download_sha1 : String) : TypedBuilder :=
  TypedBuilder.new "p.multicall" download_sha1 ""

/-- `t::MultiBuilder::new` (`src/multicall/ops/t.rs`). -/
def t.MultiBuilderNew (download_sha1 : String) : TypedBuilder :=
  TypedBuilder.new "t.multicall" download_sha1 ""

/-- A download handle (`DownloadInner` in `src/download.rs`): addressed by
its SHA1 infohash hex string. -/
structure Download where
  sha1_hex : String
deriving Repr

/-- A file handle (`FileInner` in `src/file.rs`): a download plus an `i64`
file index. -/
structure File where
  download : Download
  index : Int
deriving Repr

/-- A peer handle (`PeerInner` in `src/peer.rs`): a download plus the peer
hash hex string. -/
structure Peer where
  download : Download
  peer_sha1_hex : String
deriving Repr

/-- A tracker handle (`TrackerInner` in `src/tracker.rs`): a download plus
an `i64` tracker index. -/
structure Tracker where
  download : Download
  index : Int
deriving Repr

/-- `impl From<&Download> for Value` (`src/download.rs`). -/
def Download.toValue (dl : Download) : Value :=
  .string dl.sha1_hex

/-- `impl From<&File> for Value` (`src/file.rs` lines 144-152):
`format!("{}:f{}", sha1, index)`. -/
def File.toValue (fl : File) : Value :=
  .string (fl.download.sha1_hex ++ ":f" ++ toString fl.index)

/-- `impl From<&Peer> for Value` (`src/peer.rs` lines 196-204):
`format!("{}:p{}", sha1, peerhash)`. -/
def Peer.toValue (pr : Peer) : Value :=
  .string (pr.download.sha1_hex ++ ":p" ++ pr.peer_sha1_hex)

/-- `impl From<&Tracker> for Value` (`src/tracker.rs` lines 89-97):
`format!("{}:t{}", sha1, index)`. -/
def Tracker.toValue (tr : Tracker) : Value :=
  .string (tr.download.sha1_hex ++ ":t" ++ toString tr.index)

/-- The request built by the `prim_setter!` macro (`src/lib.rs` lines
390-403): procedure `ns ++ apimethod ++ ".set"` with the entity's
addressing key as sole argument — the macro never adds the `_new` value as
an argument. -/
def prim_setter_request (ns apimethod : String) (selfKey : Value) : Request :=
  (Request.new (ns ++ apimethod ++ ".set")).arg selfKey

/-- The full `prim_setter!` accessor body: build the request, execute it,
and decode the response with the `()` (void) rule. -/
def prim_setter_run (ns apimethod : String) (selfKey : Value)
    (transport : Request → Except Error Value) : Except Error Unit :=
  match transport (prim_setter_request ns apimethod selfKey) with
  | .error e => .error e
  | .ok val => unit_try_from_value val

/-- `File::set_priority` (`src/file.rs` lines 123-127, via `f_int_setter!`):
the request it issues.  The `_new` parameter mirrors the unused `_new`
binder of `prim_setter!`. -/
def File.set_priority_request (fl : File) (_new : Int) : Request :=
  prim_setter_request "f." "priority" fl.toValue

/-- `File::set_priority`, end to end against a transport. -/
def File.set_priority (fl : File) (_new : Int)
    (transport : Request → Except Error Value) : Except Error Unit :=
  prim_setter_run "f." "priority" fl.toValue transport

/-- `Peer::set_banned` (`src/peer.rs`, via `p_bool_setter!`): the request it
issues. -/
def Peer.set_banned_request (pr : Peer) (_new : Bool) : Request :=
  prim_setter_request "p." "banned" pr.toValue

/-- `Peer::set_banned`, end to end against a transport. -/
def Peer.set_banned (pr : Peer) (_new : Bool)
    (transport : Request → Except Error Value) : Except Error Unit :=
  prim_setter_run "p." "banned" pr.toValue transport

/-- A result that does not carry a transport error: everything the decode
pipeline itself can produce is a structural error. -/
def noRpcErr {α : Type} : Except Error α → Prop
  | .error (.xmlRpc _) => False
  | _ => True

lemma foldl_Request_arg (l : List Value) :
    ∀ (n : String) (as : List Value),
      l.foldl Request.arg ⟨n, as⟩ = ⟨n, as ++ l⟩ := by
  induction l with
  | nil => intro n as; simp
  | cons v vs ih =>
    intro n as
    simp only [List.foldl_cons, Request.arg]
    rw [ih]
    simp

lemma as_request_eq (b : MultiBuilderInternal) :
    b.as_request = ⟨b.multicall, b.call_target :: b.call_filter :: b.args⟩ :=
  foldl_Request_arg b.args b.multicall [b.call_target, b.call_filter]

lemma callSeq_inner_multicall (cols : List (ScalarTy × String)) :
    ∀ b : TypedBuilder, (callSeq b cols).inner.multicall = b.inner.multicall := by
  induction cols with
  | nil => intro b; rfl
  | cons c cs ih =>
    intro b
    simp only [callSeq, List.foldl_cons] at *
    rw [ih]
    rfl

lemma callSeq_inner_call_target (cols : List (ScalarTy × String)) :
    ∀ b : TypedBuilder, (callSeq b cols).inner.call_target = b.inner.call_target := by
  induction cols with
  | nil => intro b; rfl
  | cons c cs ih =>
    intro b
    simp only [callSeq, List.foldl_cons] at *
    rw [ih]
    rfl

lemma callSeq_inner_call_filter (cols : List (ScalarTy × String)) :
    ∀ b : TypedBuilder, (callSeq b cols).inner.call_filter = b.inner.call_filter := by
  induction cols with
  | nil => intro b; rfl
  | cons c cs ih =>
    intro b
    simp only [callSeq, List.foldl_cons] at *
    rw [ih]
    rfl

lemma callSeq_inner_args (cols : List (ScalarTy × String)) :
    ∀ b : TypedBuilder,
      (callSeq b cols).inner.args
        = b.inner.args ++ cols.map (fun c => Value.string (c.2 ++ "=")) := by
  induction cols with
  | nil => intro b; simp [callSeq]
  | cons c cs ih =>
    intro b
    simp only [callSeq, List.foldl_cons, List.map_cons] at *
    rw [ih]
    simp [TypedBuilder.call, MultiBuilderInternal.push_arg]

lemma callSeq_tys (cols : List (ScalarTy × String)) :
    ∀ b : TypedBuilder,
      (callSeq b cols).tys = b.tys ++ cols.map Prod.fst := by
  induction cols with
  | nil => intro b; simp [callSeq]
  | cons c cs ih =>
    intro b
    simp only [callSeq, List.foldl_cons, List.map_cons] at *
    rw [ih]
    simp [TypedBuilder.call]

lemma value_list_noRpc (v : Value) : noRpcErr (value_conversion.list v) := by
  cases v <;> trivial

lemma decodeScalar_noRpc (t : ScalarTy) (v : Value) : noRpcErr (decodeScalar t v) := by
  cases t <;> cases v <;>
    first
      | trivial
      | (rename_i i; rcases i with (_ | n) | n <;> trivial)

lemma decodeCells_noRpc (tys : List ScalarTy) :
    ∀ cells : List Value, noRpcErr (decodeCells tys cells) := by
  induction tys with
  | nil =>
    intro cells
    cases cells <;> simp [decodeCells, noRpcErr]
  | cons t ts ih =>
    intro cells
    cases cells with
    | nil => simp [decodeCells, noRpcErr]
    | cons c cs =>
      simp only [decodeCells]
      have h1 := decodeScalar_noRpc t c
      cases hs : decodeScalar t c with
      | error e =>
        rw [hs] at h1
        cases e with
        | xmlRpc m => exact False.elim h1
        | unexpectedStructure m => simp [noRpcErr]
      | ok s =>
        have h2 := ih cs
        cases hr : decodeCells ts cs with
        | error e =>
          rw [hr] at h2
          cases e with
          | xmlRpc m => exact False.elim h2
          | unexpectedStructure m => simp [noRpcErr]
        | ok rest => simp [noRpcErr]

lemma decodeRow_noRpc (tys : List ScalarTy) (rowv : Value) :
    noRpcErr (decodeRow tys rowv) := by
  unfold decodeRow
  have h0 := value_list_noRpc rowv
  cases hl : value_conversion.list rowv with
  | error e =>
    rw [hl] at h0
    cases e with
    | xmlRpc m => exact False.elim h0
    | unexpectedStructure m => simp [noRpcErr]
  | ok cells =>
    by_cases hlen : cells.length = tys.length
    · simp only [hlen, if_true]
      exact decodeCells_noRpc tys cells
    · simp [hlen, noRpcErr]

lemma invokeRows_noRpc (tys : List ScalarTy) (rows : List Value) :
    noRpcErr (invokeRows tys rows) := by
  induction rows with
  | nil => simp [invokeRows, noRpcErr]
  | cons r rest ih =>
    simp only [invokeRows]
    have h1 := decodeRow_noRpc tys r
    cases hs : decodeRow tys r with
    | error e =>
      rw [hs] at h1
      cases e with
      | xmlRpc m => exact False.elim h1
      | unexpectedStructure m => simp [noRpcErr]
    | ok row =>
      cases hr : invokeRows tys rest with
      | error e =>
        rw [hr] at ih
        cases e with
        | xmlRpc m => exact False.elim ih
        | unexpectedStructure m => simp [noRpcErr]
      | ok rows' => simp [noRpcErr]

/-- A transport row that the builder must reject: not an array, or an array
whose cell count differs from the column count, or an array of the right
length one of whose cells fails its column's scalar decode. -/
def badRowFor (tys : List ScalarTy) (v : Value) : Prop :=
  (∀ cells : List Value, v ≠ Value.array cells) ∨
  (∃ cells : List Value, v = Value.array cells ∧ cells.length ≠ tys.length) ∨
  (∃ cells : List Value, v = Value.array cells ∧ cells.length = tys.length ∧
    ∃ (i : Nat) (hi : i < tys.length) (hc : i < cells.length) (e : Error),
      decodeScalar (tys.get ⟨i, hi⟩) (cells.get ⟨i, hc⟩) = Except.error e)

lemma decodeCells_err (tys : List ScalarTy) :
    ∀ (cells : List Value) (i : Nat) (hi : i < tys.length) (hc : i < cells.length)
      (e : Error),
      decodeScalar (tys.get ⟨i, hi⟩) (cells.get ⟨i, hc⟩) = Except.error e →
      ∃ e2, decodeCells tys cells = Except.error e2 := by
  induction tys with
  | nil =>
    intro cells i hi
    exact absurd hi (by simp)
  | cons t ts ih =>
    intro cells i hi hc e hdec
    cases cells with
    | nil => exact absurd hc (by simp)
    | cons c cs =>
      cases hs : decodeScalar t c with
      | error e1 =>
        refine ⟨e1, ?_⟩
        simp [decodeCells, hs]
      | ok s =>
        cases i with
        | zero =>
          simp only [List.get] at hdec
          rw [hdec] at hs
          exact absurd hs (by simp)
        | succ j =>
          have hj : j < ts.length := Nat.lt_of_succ_lt_succ hi
          have hjc : j < cs.length := Nat.lt_of_succ_lt_succ hc
          obtain ⟨e2, h2⟩ := ih cs j hj hjc e hdec
          refine ⟨e2, ?_⟩
          simp [decodeCells, hs, h2]

lemma decodeRow_err_of_bad (tys : List ScalarTy) (v : Value)
    (hbad : badRowFor tys v) : ∃ e, decodeRow tys v = Except.error e := by
  rcases hbad with hna | ⟨cells, hv, hlen⟩ | ⟨cells, hv, hlen, i, hi, hc, e, hdec⟩
  · cases v with
    | array a => exact absurd rfl (hna a)
    | int i => exact ⟨_, rfl⟩
    | int64 i => exact ⟨_, rfl⟩
    | bool b => exact ⟨_, rfl⟩
    | string s => exact ⟨_, rfl⟩
    | dateTime s => exact ⟨_, rfl⟩
    | base64 bs => exact ⟨_, rfl⟩
    | strukt fs => exact ⟨_, rfl⟩
    | nil => exact ⟨_, rfl⟩
  · subst hv
    refine ⟨Error.unexpectedStructure
      ("row missing columns (" ++ (Value.array cells).describe ++ ")"), ?_⟩
    simp [decodeRow, value_conversion.list, hlen]
  · subst hv
    obtain ⟨e2, h2⟩ := decodeCells_err tys cells i hi hc e hdec
    refine ⟨e2, ?_⟩
    simp [decodeRow, value_conversion.list, hlen, h2]

lemma invokeRows_err (tys : List ScalarTy) (rows : List Value)
    (h : ∃ v ∈ rows, badRowFor tys v) :
    ∃ e, invokeRows tys rows = Except.error e := by
  induction rows with
  | nil =>
    obtain ⟨v, hv, _⟩ := h
    exact absurd hv (by simp)
  | cons r rest ih =>
    obtain ⟨v, hv, hbad⟩ := h
    cases hs : decodeRow tys r with
    | error e =>
      refine ⟨e, ?_⟩
      simp [invokeRows, hs]
    | ok row =>
      rcases List.mem_cons.mp hv with hveq | hvmem
      · subst hveq
        obtain ⟨e, he⟩ := decodeRow_err_of_bad tys v hbad
        rw [he] at hs
        exact absurd hs (by simp)
      · obtain ⟨e2, h2⟩ := ih ⟨v, hvmem, hbad⟩
        refine ⟨e2, ?_⟩
        simp [invokeRows, hs, h2]

lemma error_structural_of_noRpc {α : Type} (x : Except Error α) (hn : noRpcErr x)
    (e : Error) (hx : x = Except.error e) :
    ∃ msg, e = Error.unexpectedStructure msg := by
  subst hx
  cases e with
  | xmlRpc m => exact False.elim hn
  | unexpectedStructure m => exact ⟨m, rfl⟩

/-- C1: appending k operations (0 ≤ k ≤ 9) to a `MultiBuilder` via
successive `call` invocations yields a builder whose static row-type list
has exactly k components, one per appended operation in append order, and
the request emitted by `invoke` carries exactly k column arguments after
the call-target and call-filter, in the same order as the `call`
invocations — columns are append-only, never reordered or dropped. -/
theorem call_appends_columns_in_order (m tgt flt : String)
    (cols : List (ScalarTy × String)) (_hk : cols.length ≤ 9) :
    (callSeq (TypedBuilder.new m tgt flt) cols).tys = cols.map Prod.fst ∧
    (callSeq (TypedBuilder.new m tgt flt) cols).tys.length = cols.length ∧
    (callSeq (TypedBuilder.new m tgt flt) cols).inner.as_request.args
      = Value.string tgt :: Value.string flt
          :: cols.map (fun c => Value.string (c.2 ++ "=")) := by
  refine ⟨?_, ?_, ?_⟩
  · rw [callSeq_tys]
    simp [TypedBuilder.new]
  · rw [callSeq_tys]
    simp [TypedBuilder.new]
  · simp [as_request_eq, callSeq_inner_call_target, callSeq_inner_call_filter,
      callSeq_inner_args, TypedBuilder.new, MultiBuilder.new, MultiBuilderInternal.new]

/-- Witness for C1 at a concrete two-column builder. -/
theorem call_appends_columns_in_order_witness :
    ([(ScalarTy.i64, "d.size_bytes"), (ScalarTy.str, "d.name")] :
        List (ScalarTy × String)).length ≤ 9 ∧
    ((callSeq (TypedBuilder.new "d.multicall2" "" "default")
          [(ScalarTy.i64, "d.size_bytes"), (ScalarTy.str, "d.name")]).tys
        = [ScalarTy.i64, ScalarTy.str] ∧
      (callSeq (TypedBuilder.new "d.multicall2" "" "default")
          [(ScalarTy.i64, "d.size_bytes"), (ScalarTy.str, "d.name")]).tys.length = 2 ∧
      (callSeq (TypedBuilder.new "d.multicall2" "" "default")
          [(ScalarTy.i64, "d.size_bytes"), (ScalarTy.str, "d.name")]).inner.as_request.args
        = [Value.string "", Value.string "default",
           Value.string "d.size_bytes=", Value.string "d.name="]) :=
  ⟨by decide,
   call_appends_columns_in_order "d.multicall2" "" "default"
     [(ScalarTy.i64, "d.size_bytes"), (ScalarTy.str, "d.name")] (by decide)⟩

/-- C2: a builder constructed with procedure name m, call-target tgt and
call-filter flt, with getters appended, builds a request whose procedure is
m, whose first positional argument is tgt, whose second is flt, and which
then carries one positional argument per column equal to the getter string
followed by "=", in column order. -/
theorem invoke_request_shape (m tgt flt : String) (cols : List (ScalarTy × String)) :
    (callSeq (TypedBuilder.new m tgt flt) cols).inner.as_request.name = m ∧
    (callSeq (TypedBuilder.new m tgt flt) cols).inner.as_request.args
      = Value.string tgt :: Value.string flt
          :: cols.map (fun c => Value.string (c.2 ++ "=")) := by
  constructor
  · simp [as_request_eq, callSeq_inner_multicall, TypedBuilder.new, MultiBuilder.new,
      MultiBuilderInternal.new]
  · simp [as_request_eq, callSeq_inner_call_target, callSeq_inner_call_filter,
      callSeq_inner_args, TypedBuilder.new, MultiBuilder.new, MultiBuilderInternal.new]

/-- C9: whenever the transport response is an empty array, `invoke` returns
an empty row sequence, not an error, at any arity. -/
theorem invoke_empty_response_ok (b : TypedBuilder)
    (transport : Request → Except Error Value)
    (htr : transport b.inner.as_request = Except.ok (Value.array [])) :
    b.invoke transport = Except.ok [] := by
  simp [TypedBuilder.invoke, MultiBuilderInternal.invoke, htr, value_conversion.list,
    invokeRows]

/-- Witness for C9 on a concrete one-column file builder and a mocked
transport returning an empty array. -/
theorem invoke_empty_response_ok_witness :
    ((fun _ : Request => (Except.ok (Value.array []) : Except Error Value))
        ((f.MultiBuilderNew "ABCD" none).call ScalarTy.str "f.path").inner.as_request
      = Except.ok (Value.array [])) ∧
    ((f.MultiBuilderNew "ABCD" none).call ScalarTy.str "f.path").invoke
        (fun _ => (Except.ok (Value.array []) : Except Error Value)) = Except.ok [] :=
  ⟨rfl, invoke_empty_response_ok _ _ rfl⟩

/-- C6: the addressing key of a file handle is the download hash followed by
":f" and the decimal file index; a peer handle's is the hash followed by
":p" and the peer hash; a tracker handle's is the hash followed by ":t" and
the decimal tracker index. -/
theorem addressing_key_format (hsh phash : String) (i j : Nat) :
    File.toValue ⟨⟨hsh⟩, (i : Int)⟩ = Value.string (hsh ++ ":f" ++ toString i) ∧
    Peer.toValue ⟨⟨hsh⟩, phash⟩ = Value.string (hsh ++ ":p" ++ phash) ∧
    Tracker.toValue ⟨⟨hsh⟩, (j : Int)⟩ = Value.string (hsh ++ ":t" ++ toString j) :=
  ⟨rfl, rfl, rfl⟩

/-- C10: constructing a file multicall builder with `glob = None` yields the
same builder as `glob = Some ""`, with call-filter the empty string, and
hence the same emitted request after any subsequent column sequence. -/
theorem file_builder_none_glob_eq_empty (hsh : String) :
    f.MultiBuilderNew hsh none = f.MultiBuilderNew hsh (some "") ∧
    (f.MultiBuilderNew hsh none).inner.call_filter = Value.string "" ∧
    ∀ cols : List (ScalarTy × String),
      (callSeq (f.MultiBuilderNew hsh none) cols).inner.as_request
        = (callSeq (f.MultiBuilderNew hsh (some "")) cols).inner.as_request :=
  ⟨rfl, rfl, fun _ => rfl⟩

/-- C3: if the transport answers with an array of rows of which at least one
is not an array, or has a cell count different from the builder's column
count, or has a cell that fails its column's scalar decode, then `invoke`
returns a single structural error and no rows at all — never the decoded
prefix. -/
theorem invoke_all_or_nothing (b : TypedBuilder)
    (transport : Request → Except Error Value) (rows : List Value)
    (htr : transport b.inner.as_request = Except.ok (Value.array rows))
    (hbad : ∃ v ∈ rows, badRowFor b.tys v) :
    ∃ msg, b.invoke transport = Except.error (Error.unexpectedStructure msg) := by
  obtain ⟨e, he⟩ := invokeRows_err b.tys rows hbad
  have hinv : b.invoke transport = invokeRows b.tys rows := by
    simp [TypedBuilder.invoke, MultiBuilderInternal.invoke, htr, value_conversion.list]
  obtain ⟨msg, hmsg⟩ :=
    error_structural_of_noRpc (invokeRows b.tys rows) (invokeRows_noRpc b.tys rows) e he
  exact ⟨msg, by rw [hinv, he, hmsg]⟩

/-- Witness for C3: a two-column builder against a mocked transport that
returns one row with three cells must fail structurally. -/
theorem invoke_all_or_nothing_witness :
    ((fun _ : Request =>
        (Except.ok (Value.array [Value.array [Value.int 1, Value.string "x", Value.int 2]])
          : Except Error Value))
      ((callSeq (TypedBuilder.new "d.multicall2" "" "default")
          [(ScalarTy.i64, "d.size_bytes"), (ScalarTy.str, "d.name")]).inner.as_request)
      = Except.ok (Value.array [Value.array [Value.int 1, Value.string "x", Value.int 2]])) ∧
    ∃ msg,
      (callSeq (TypedBuilder.new "d.multicall2" "" "default")
          [(ScalarTy.i64, "d.size_bytes"), (ScalarTy.str, "d.name")]).invoke
        (fun _ =>
          (Except.ok (Value.array [Value.array [Value.int 1, Value.string "x", Value.int 2]])
            : Except Error Value))
        = Except.error (Error.unexpectedStructure msg) :=
  ⟨rfl,
   invoke_all_or_nothing _ _ _ rfl
     ⟨Value.array [Value.int 1, Value.string "x", Value.int 2], by simp,
      Or.inr (Or.inl ⟨[Value.int 1, Value.string "x", Value.int 2], rfl, by decide⟩)⟩⟩

/-- C4 code evaluation: every constant of the file-entity catalog carries
the namespace literal "p." of `f_op_const!` — `f::SIZE_BYTES` evaluates to
"p.size_bytes", not "f.size_bytes". -/
theorem file_catalog_names_use_p_namespace :
    fileCatalog.map Operation.name
      = ["p.completed_chunks", "p.frozen_path", "p.offset", "p.path", "p.priority",
         "p.size_bytes", "p.size_chunks"] ∧
    f.SIZE_BYTES.name = "p.size_bytes" ∧
    f.SIZE_BYTES.name ≠ "f.size_bytes" := by
  refine ⟨by decide, by decide, by decide⟩

/-- C5 code evaluation: the request issued by `prim_setter!`-generated
setters carries only the entity's addressing key — the new value never
appears (the `_new` parameter is unused), so the request is independent of
the value passed; the response is decoded with the void rule. -/
theorem setter_request_drops_value :
    (File.set_priority_request ⟨⟨"ABCD"⟩, 0⟩ 2).name = "f.priority.set" ∧
    (File.set_priority_request ⟨⟨"ABCD"⟩, 0⟩ 2).args = [Value.string "ABCD:f0"] ∧
    (∀ v w : Int, File.set_priority_request ⟨⟨"ABCD"⟩, 0⟩ v
        = File.set_priority_request ⟨⟨"ABCD"⟩, 0⟩ w) ∧
    (∀ resp : Value, File.set_priority ⟨⟨"ABCD"⟩, 0⟩ 2 (fun _ => Except.ok resp)
        = unit_try_from_value resp) ∧
    (∀ v w : Bool, Peer.set_banned_request ⟨⟨"ABCD"⟩, "beef"⟩ v
        = Peer.set_banned_request ⟨⟨"ABCD"⟩, "beef"⟩ w) :=
  ⟨rfl, rfl, fun _ _ => rfl, fun _ => rfl, fun _ _ => rfl⟩

/-- C7 counterexample: the claim says the void decode accepts a zero-valued
integer of either variant, but the code rejects `Value::Int64(0)`. -/
theorem void_decode_rejects_int64_zero :
    (unit_try_from_value (Value.int64 0)).isOk = false := rfl

/-- C7 amended: the void decode succeeds exactly on `Value::Int(0)` (the
narrow integer variant only) and `Value::Nil`; everything else — including
`Int64(0)`, `Int(1)` and `String("")` — is rejected, and every rejection is
a structural error. -/
theorem void_decode_characterization (v : Value) :
    ((unit_try_from_value v).isOk = true ↔ (v = Value.int 0 ∨ v = Value.nil)) ∧
    noRpcErr (unit_try_from_value v) := by
  refine ⟨?_, ?_⟩
  case refine_2 =>
    cases v <;>
      first
        | trivial
        | (rename_i i; rcases i with (_ | n) | n <;> trivial)
  cases v with
  | int i =>
    rcases i with (_ | n) | n
    · exact ⟨fun _ => Or.inl rfl, fun _ => rfl⟩
    · refine ⟨fun h => Bool.noConfusion h, fun h => ?_⟩
      rcases h with h | h
      · exact Nat.noConfusion (Int.ofNat.inj (Value.int.inj h))
      · exact Value.noConfusion h
    · refine ⟨fun h => Bool.noConfusion h, fun h => ?_⟩
      rcases h with h | h
      · exact Int.noConfusion (Value.int.inj h)
      · exact Value.noConfusion h
  | int64 i =>
    refine ⟨fun h => ?_, fun h => ?_⟩
    · rcases i with (_ | n) | n <;> exact Bool.noConfusion h
    · rcases h with h | h <;> exact Value.noConfusion h
  | bool b =>
    exact ⟨fun h => Bool.noConfusion h,
      fun h => by rcases h with h | h <;> exact Value.noConfusion h⟩
  | string s =>
    exact ⟨fun h => Bool.noConfusion h,
      fun h => by rcases h with h | h <;> exact Value.noConfusion h⟩
  | dateTime s =>
    exact ⟨fun h => Bool.noConfusion h,
      fun h => by rcases h with h | h <;> exact Value.noConfusion h⟩
  | base64 bs =>
    exact ⟨fun h => Bool.noConfusion h,
      fun h => by rcases h with h | h <;> exact Value.noConfusion h⟩
  | strukt fs =>
    exact ⟨fun h => Bool.noConfusion h,
      fun h => by rcases h with h | h <;> exact Value.noConfusion h⟩
  | array a =>
    exact ⟨fun h => Bool.noConfusion h,
      fun h => by rcases h with h | h <;> exact Value.noConfusion h⟩
  | nil => exact ⟨fun _ => Or.inr rfl, fun _ => rfl⟩

/-- C8: the boolean decode maps integer 0 (either variant) to false, any
nonzero integer to true, a native boolean to itself, and every other
shape — strings included — to a structural error. -/
theorem bool_decode_characterization :
    bool_try_from_value (Value.int 0) = Except.ok false ∧
    bool_try_from_value (Value.int64 0) = Except.ok false ∧
    (∀ i : Int, i ≠ 0 → bool_try_from_value (Value.int i) = Except.ok true ∧
        bool_try_from_value (Value.int64 i) = Except.ok true) ∧
    (∀ b : Bool, bool_try_from_value (Value.bool b) = Except.ok b) ∧
    (∀ s : String, ∃ msg,
        bool_try_from_value (Value.string s) = Except.error (Error.unexpectedStructure msg)) ∧
    (∀ v : Value, v.boolShape = false →
        ∃ msg, bool_try_from_value v = Except.error (Error.unexpectedStructure msg)) := by
  refine ⟨rfl, rfl, fun i hi => ?_, fun b => rfl, fun s => ⟨_, rfl⟩, fun v hv => ?_⟩
  · constructor <;> simp [bool_try_from_value, bne_iff_ne, hi]
  · cases v with
    | int i => exact Bool.noConfusion hv
    | int64 i => exact Bool.noConfusion hv
    | bool b => exact Bool.noConfusion hv
    | string s => exact ⟨_, rfl⟩
    | dateTime s => exact ⟨_, rfl⟩
    | base64 bs => exact ⟨_, rfl⟩
    | strukt fs => exact ⟨_, rfl⟩
    | array a => exact ⟨_, rfl⟩
    | nil => exact ⟨_, rfl⟩

/-- Witness for C8 at integer 7 and an empty string. -/
theorem bool_decode_characterization_witness :
    ((7 : Int) ≠ 0 ∧ bool_try_from_value (Value.int 7) = Except.ok true ∧
      bool_try_from_value (Value.int64 7) = Except.ok true) ∧
    ((Value.string "").boolShape = false ∧
      ∃ msg, bool_try_from_value (Value.string "")
        = Except.error (Error.unexpectedStructure msg)) :=
  ⟨⟨by decide, (bool_decode_characterization.2.2.1 7 (by decide)).1,
    (bool_decode_characterization.2.2.1 7 (by decide)).2⟩,
   ⟨rfl, bool_decode_characterization.2.2.2.2.2 (Value.string "") rfl⟩⟩

end Rtorrent
